import Mathlib

/-! The detox `test` command line front-end: configuration resolution and command assembly.

A shallow embedding of `local-cli/detox-test.js` and `src/utils/camelToKebabCase.js`.

* JavaScript values are the type `JsVal`; `||`, template-literal interpolation and
  property access are `JsVal.truthy`, `JsVal.toJsString` and `JsVal.getProp`.
* The script body is `main`: explicit state passing over `World` (files written by
  this program, console lines, spawned commands) with the thrown error, if any,
  next to it.
* `camelToKebabCase` is the regular-expression replacement followed by
  `toLowerCase`, both on the character list of the string.
-/

namespace Detox

/-! ## Strings -/

/-- Character class `[a-z]` of the regular expression. -/
def isLowerAZ (c : Char) : Bool := decide (97 ≤ c.toNat) && decide (c.toNat ≤ 122)

/-- Character class `[A-Z]` of the regular expression. -/
def isUpperAZ (c : Char) : Bool := decide (65 ≤ c.toNat) && decide (c.toNat ≤ 90)

/-- Lower-casing of one character. `String.prototype.toLowerCase` maps `A`..`Z` to
`a`..`z`; characters outside ASCII keep their value here (their Unicode case
mapping is not part of the embedding). -/
def lowerChar (c : Char) : Char :=
  if isUpperAZ c then Char.ofNat (c.toNat + 32) else c

/-- The method `String.prototype.toLowerCase`. -/
def toLowerCase (s : String) : String := ⟨s.data.map lowerChar⟩

/-- The call `string.replace(/([a-z])([A-Z])/g, '$1-$2')` on the characters of the
string. The global regular expression is tried at the current index; on a match
the two captured characters are emitted with a hyphen between them and the scan
resumes after the match (matches do not overlap); otherwise the current character
is copied and the scan advances by one. -/
def replaceCamel : List Char → List Char
  | c1 :: c2 :: rest =>
    if isLowerAZ c1 && isUpperAZ c2 then c1 :: '-' :: c2 :: replaceCamel rest
    else c1 :: replaceCamel (c2 :: rest)
  | cs => cs

/-- The function `camelToKebabCase` of `src/utils/camelToKebabCase.js` (and its copy
in `local-cli/detox-test.js`). -/
def camelToKebabCase (string : String) : String :=
  toLowerCase ⟨replaceCamel string.data⟩

/-- Position `i` of `cs` is a camel boundary: a lowercase letter at `i` immediately
followed by an uppercase letter at `i + 1`. -/
def isBoundary (cs : List Char) (i : Nat) : Bool :=
  match cs[i]?, cs[i + 1]? with
  | some a, some b => isLowerAZ a && isUpperAZ b
  | _, _ => false

/-- Reference hyphenation, following the words of the specification: every
character of the input in order, each one followed by a hyphen exactly when its
position is a camel boundary. -/
def insertHyphens (cs : List Char) : List Char :=
  (List.range cs.length).flatMap fun i =>
    match cs[i]? with
    | some c => if isBoundary cs i then [c, '-'] else [c]
    | none => []

/-- Reference definition of the key-name normaliser: hyphenate every boundary, then
lowercase the whole result. -/
def toKebabCaseRef (s : String) : String :=
  toLowerCase ⟨insertHyphens s.data⟩

/-- The method `String.prototype.includes`: `sub` occurs in `s` as a contiguous
run of characters. -/
def includes (s sub : String) : Prop := sub.data <:+: s.data

instance (s sub : String) : Decidable (includes s sub) := by
  unfold includes; infer_instance

/-! ## JavaScript values -/

/-- The values the program handles: flag values produced by the argument parser
and JSON data read from `package.json`. Numbers are the integers (JSON numbers
written without fraction or exponent, in the range printed in plain decimal);
objects are their own properties in order. JSON arrays are not represented. -/
inductive JsVal where
  | undefined
  | null
  | bool (b : Bool)
  | num (n : Int)
  | str (s : String)
  | obj (fields : List (String × JsVal))

/-- Ways a run can end before the last statement of the script. -/
inductive JsError where
  /-- Not an exception: `program.parse` ended the process itself, with this exit
  status (the help text was asked for, or an option is unknown). -/
  | processExit (status : Nat)
  /-- The `require` of `package.json` failed (no such file, or not valid JSON). -/
  | requireFailed
  /-- A property was read from `undefined` or `null`. -/
  | typeError (property : String)
  /-- An error made by `new Error(message)`. -/
  | error (message : String)
  /-- The synchronous child process ended with a non-zero status. -/
  | commandFailed (command : String)
  deriving DecidableEq

namespace JsVal

/-- The abstract operation ToBoolean, which decides `||`, `&&` and `? :`. -/
def truthy : JsVal → Bool
  | undefined => false
  | null => false
  | bool b => b
  | num n => decide (n ≠ 0)
  | str s => decide (s ≠ "")
  | obj _ => true

/-- The abstract operation ToString, applied by template literals and by computed
property keys. -/
def toJsString : JsVal → String
  | undefined => "undefined"
  | null => "null"
  | bool true => "true"
  | bool false => "false"
  | num n => toString n
  | str s => s
  | obj _ => "[object Object]"

/-- Property read `v[key]`. Reading from `undefined` or `null` throws; an object
gives the value stored under the key, or `undefined`; a primitive has none of the
keys of a settings object (inherited properties are not represented). -/
def getProp (v : JsVal) (key : String) : Except JsError JsVal :=
  match v with
  | undefined => .error (.typeError key)
  | null => .error (.typeError key)
  | obj fields => .ok ((fields.lookup key).getD undefined)
  | _ => .ok undefined

/-- The test `typeof v === "boolean"`. -/
def isBoolean : JsVal → Bool
  | bool _ => true
  | _ => false

/-- The test `v === s` against a string literal `s`. -/
def strictEqStr (v : JsVal) (s : String) : Bool :=
  match v with
  | str t => decide (t = s)
  | _ => false

end JsVal

/-! ## Flags -/

/-- The parsed command line: one property per option declared on `program`. A
property is `undefined` when its flag was not given. -/
structure Program where
  runnerConfig : JsVal
  specs : JsVal
  loglevel : JsVal
  configuration : JsVal
  reuse : JsVal
  cleanup : JsVal
  debugSynchronization : JsVal
  artifactsLocation : JsVal
  platform : JsVal

/-- Flags of a command line with no option given. -/
def Program.none : Program :=
  ⟨.undefined, .undefined, .undefined, .undefined, .undefined, .undefined, .undefined,
    .undefined, .undefined⟩

/-- Property read `program[key]`: the option stored under that name, `undefined`
for a name no option declares. -/
def Program.get (program : Program) (key : String) : JsVal :=
  if key = "runnerConfig" then program.runnerConfig
  else if key = "specs" then program.specs
  else if key = "loglevel" then program.loglevel
  else if key = "configuration" then program.configuration
  else if key = "reuse" then program.reuse
  else if key = "cleanup" then program.cleanup
  else if key = "debugSynchronization" then program.debugSynchronization
  else if key = "artifactsLocation" then program.artifactsLocation
  else if key = "platform" then program.platform
  else .undefined

/-! ## Configuration resolution -/

/-- The function `getConfigFor`: `program[key] || config[key] || config[keyKebabCase]
|| defaults`. Each operand is evaluated only when every operand before it is
falsy, so `config` is not read when the flag value is truthy. -/
def getConfigFor (program : Program) (config : JsVal) (key : String) (defaults : JsVal) :
    Except JsError JsVal :=
  let keyKebabCase := camelToKebabCase key
  if (program.get key).truthy then .ok (program.get key)
  else
    match config.getProp key with
    | .error e => .error e
    | .ok exact =>
      if exact.truthy then .ok exact
      else
        match config.getProp keyKebabCase with
        | .error e => .error e
        | .ok kebab => if kebab.truthy then .ok kebab else .ok defaults

/-- The function `getDefaultRunnerConfig` for a resolved `runner`: the value it
returns and the lines it prints with `console.log`. -/
def getDefaultRunnerConfig (runner : JsVal) : JsVal × List String :=
  if runner.strictEqStr "mocha" then (.str "e2e/mocha.opts", [])
  else if runner.strictEqStr "jest" then (.str "e2e/config.json", [])
  else
    (.undefined,
      ["Missing 'runner-config' value in detox config in package.json, using '"
        ++ JsVal.undefined.toJsString ++ "' as default for " ++ runner.toJsString])

/-- The function `getPlatformSpecificString`. -/
def getPlatformSpecificString (platform : JsVal) : JsVal :=
  if platform.strictEqStr "ios" then .str ":android:"
  else if platform.strictEqStr "android" then .str ":ios:"
  else .undefined

/-! ## Effects -/

/-- One call of `cp.execSync`: the command line and, when the call passes one, the
environment of the child (otherwise the child inherits the environment). -/
structure Spawn where
  command : String
  env : Option (List (String × JsVal))

/-- A file on disk. Several paths can name one file (a relative and an absolute
spelling, a link), so files are told apart by identity and not by path. -/
abbrev FileId := Nat

/-- The files on disk with their contents. -/
abbrev Files := List (FileId × String)

/-- What the program acts on: the files on disk, the lines the script prints with
`console.log`, and the child processes started, in order. -/
structure World where
  files : Files
  console : List String
  spawned : List Spawn

/-- The final world of a run and the way the run ended early, if it did. -/
structure Outcome where
  world : World
  error : Option JsError

/-- Content of the file that `path` names, when there is one; `resolve` gives the
file a path names from the working directory of the process. -/
def readFile (resolve : String → FileId) (files : Files) (path : String) : Option String :=
  files.lookup (resolve path)

/-- The call `fs.writeFileSync(path, content)`: the file that `path` names is created
or its content replaced. -/
def writeFileSync (resolve : String → FileId) (files : Files) (path content : String) :
    Files :=
  (resolve path, content) :: files.filter fun entry => entry.1 != resolve path

/-- The constant `LOCK_FILE`. -/
def LOCK_FILE : String := "./device.registry.state.lock"

/-- The function `clearDeviceRegistryLockFile`. -/
def clearDeviceRegistryLockFile (resolve : String → FileId) (w : World) : World :=
  { w with files := writeFileSync resolve w.files LOCK_FILE "[]" }

/-- The call `cp.execSync(command, options)`: the child is started and waited for,
so the files are as the child leaves them (`childFiles`, applied to the files it
starts with) when the call ends; a non-zero exit status of the child is thrown. -/
def execSync (command : String) (env : Option (List (String × JsVal))) (childStatus : Nat)
    (childFiles : Files → Files) (w : World) : Outcome :=
  let w' := { w with files := childFiles w.files, spawned := w.spawned ++ [⟨command, env⟩] }
  if childStatus = 0 then ⟨w', none⟩ else ⟨w', some (.commandFailed command)⟩

/-! ## The two runners -/

/-- The command line assembled by `runMocha`. -/
def mochaCommand (program : Program) (testFolder runnerConfig : JsVal) : String :=
  let loglevel :=
    if program.loglevel.truthy then "--loglevel " ++ program.loglevel.toJsString else ""
  let configuration :=
    if program.configuration.truthy then "--configuration " ++ program.configuration.toJsString
    else ""
  let cleanup := if program.cleanup.truthy then "--cleanup" else ""
  let reuse := if program.reuse.truthy then "--reuse" else ""
  let artifactsLocation :=
    if program.artifactsLocation.truthy then
      "--artifacts-location " ++ program.artifactsLocation.toJsString
    else ""
  let configFile := if runnerConfig.truthy then "--opts " ++ runnerConfig.toJsString else ""
  let platform :=
    if program.platform.truthy then
      "--grep " ++ (getPlatformSpecificString program.platform).toJsString ++ " --invert"
    else ""
  let debugSynchronization :=
    if program.debugSynchronization.truthy then
      "--debug-synchronization " ++ program.debugSynchronization.toJsString
    else ""
  "node_modules/.bin/mocha " ++ testFolder.toJsString ++ " " ++ configFile ++ " "
    ++ configuration ++ " " ++ loglevel ++ " " ++ cleanup ++ " " ++ reuse ++ " "
    ++ debugSynchronization ++ " " ++ platform ++ " " ++ artifactsLocation

/-- The function `runMocha`. -/
def runMocha (program : Program) (testFolder runnerConfig : JsVal) (childStatus : Nat)
    (childFiles : Files → Files) (w : World) : Outcome :=
  execSync (mochaCommand program testFolder runnerConfig) none childStatus childFiles w

/-- The command line assembled by `runJest` for a worker count. -/
def jestCommand (program : Program) (testFolder runnerConfig maxTestWorkers : JsVal) : String :=
  let configFile := if runnerConfig.truthy then "--config=" ++ runnerConfig.toJsString else ""
  let platform :=
    if program.platform.truthy then
      "--testNamePattern='^((?!" ++ (getPlatformSpecificString program.platform).toJsString
        ++ ").)*$'"
    else ""
  "node_modules/.bin/jest " ++ testFolder.toJsString ++ " " ++ configFile ++ " --maxWorkers="
    ++ maxTestWorkers.toJsString ++ " " ++ platform

/-- The environment built by `runJest` with `Object.assign` from `process.env` and
the forwarded options. A property is looked up from the front, so the entries of
the later source come first. -/
def jestEnv (program : Program) (maxTestWorkers : JsVal) (processEnv : List (String × JsVal)) :
    List (String × JsVal) :=
  [("configuration", program.configuration),
   ("loglevel", program.loglevel),
   ("cleanup", program.cleanup),
   ("reuse", program.reuse),
   ("debugSynchronization", program.debugSynchronization),
   ("artifactsLocationartifactsLocation", program.artifactsLocation),
   ("maxTestWorkers", maxTestWorkers)] ++ processEnv

/-- The constant `currentConfiguration` of `runJest`:
`config.configurations && config.configurations[program.configuration]`. -/
def currentConfiguration (program : Program) (config : JsVal) : Except JsError JsVal :=
  match config.getProp "configurations" with
  | .error e => .error e
  | .ok configurations =>
    if configurations.truthy then configurations.getProp program.configuration.toJsString
    else .ok configurations

/-- The constant `maxTestWorkers` of `runJest`: `currentConfiguration.maxTestWorkers || 1`. -/
def maxTestWorkers (program : Program) (config : JsVal) : Except JsError JsVal :=
  match currentConfiguration program config with
  | .error e => .error e
  | .ok current =>
    match current.getProp "maxTestWorkers" with
    | .error e => .error e
    | .ok hint => if hint.truthy then .ok hint else .ok (.num 1)

/-- The function `runJest`. -/
def runJest (program : Program) (config testFolder runnerConfig : JsVal)
    (processEnv : List (String × JsVal)) (childStatus : Nat) (childFiles : Files → Files)
    (w : World) : Outcome :=
  match maxTestWorkers program config with
  | .error e => ⟨w, some e⟩
  | .ok workers =>
    execSync (jestCommand program testFolder runnerConfig workers)
      (some (jestEnv program workers processEnv)) childStatus childFiles w

/-! ## The script -/

/-- The top-level constants `config`, `testFolder`, `runner` and `runnerConfig`. -/
structure Settings where
  config : JsVal
  testFolder : JsVal
  runner : JsVal
  runnerConfig : JsVal

/-- The settings object: `require(path.join(process.cwd(), 'package.json')).detox`, for
the parsed `package.json` (`none` when it cannot be loaded). -/
def requireConfig (packageJson : Option JsVal) : Except JsError JsVal :=
  match packageJson with
  | Option.none => .error .requireFailed
  | some manifest => manifest.getProp "detox"

/-- The constant `testFolder`. -/
def testFolder (program : Program) (config : JsVal) : Except JsError JsVal :=
  getConfigFor program config "specs" (.str "e2e")

/-- The constant `runner`. -/
def runner (program : Program) (config : JsVal) : Except JsError JsVal :=
  getConfigFor program config "testRunner" (.str "mocha")

/-- The constant `runnerConfig` for an already resolved `runner`; the default is
computed, and its diagnostic printed, before `getConfigFor` is entered. -/
def runnerConfig (program : Program) (config resolvedRunner : JsVal) (w : World) :
    World × Except JsError JsVal :=
  let defaults := getDefaultRunnerConfig resolvedRunner
  ({ w with console := w.console ++ defaults.2 },
    getConfigFor program config "runnerConfig" defaults.1)

/-- Lines 32 to 36 of the script: the settings object is loaded and the three
settings are resolved in order. -/
def loadSettings (program : Program) (packageJson : Option JsVal) (w : World) :
    World × Except JsError Settings :=
  match requireConfig packageJson with
  | .error e => (w, .error e)
  | .ok config =>
    match testFolder program config with
    | .error e => (w, .error e)
    | .ok folder =>
      match runner program config with
      | .error e => (w, .error e)
      | .ok resolvedRunner =>
        match runnerConfig program config resolvedRunner w with
        | (w', .error e) => (w', .error e)
        | (w', .ok file) => (w', .ok ⟨config, folder, resolvedRunner, file⟩)

/-- Lines 38 to 40: a `--debug-synchronization` flag given without a value is the
boolean `true` and becomes the threshold 3000. -/
def normalizeDebugSynchronization (program : Program) : Program :=
  if program.debugSynchronization.isBoolean then
    { program with debugSynchronization := .num 3000 }
  else program

/-- The `switch (runner)` statement. -/
def dispatch (program : Program) (s : Settings) (processEnv : List (String × JsVal))
    (childStatus : Nat) (childFiles : Files → Files) (w : World) : Outcome :=
  if s.runner.strictEqStr "mocha" then
    runMocha program s.testFolder s.runnerConfig childStatus childFiles w
  else if s.runner.strictEqStr "jest" then
    runJest program s.config s.testFolder s.runnerConfig processEnv childStatus childFiles w
  else
    ⟨w, some (.error (s.runner.toJsString
      ++ " is not supported in detox cli tools. You can still run your tests with the runner's own cli tool"))⟩

/-- Everything the script is given once `program.parse` has returned: the flags, the
parsed `package.json`, the environment, the files on disk, the exit status of the
runner that may be spawned and the files as that runner leaves them, and the file
each path names. -/
structure Input where
  program : Program
  packageJson : Option JsVal
  processEnv : List (String × JsVal)
  files : Files
  childStatus : Nat
  childFiles : Files → Files
  resolve : String → FileId

/-- A working directory for concrete runs: the lock file under both of its relative
spellings, `package.json`, `notes.txt`, and one more file for every other path. -/
def sampleResolve (path : String) : FileId :=
  if path = "./device.registry.state.lock" ∨ path = "device.registry.state.lock" then 0
  else if path = "package.json" then 1
  else if path = "notes.txt" then 2
  else 3

/-- Lines 30 to 60 of the script: everything after `program.parse` has returned the
flags. -/
def main (i : Input) : Outcome :=
  let w := clearDeviceRegistryLockFile i.resolve ⟨i.files, [], []⟩
  match loadSettings i.program i.packageJson w with
  | (w', .error e) => ⟨w', some e⟩
  | (w', .ok settings) =>
    dispatch (normalizeDebugSynchronization i.program) settings i.processEnv i.childStatus
      i.childFiles w'

/-- What `program.parse(process.argv)` (line 28) does with a command line: it ends
the process itself, as it does for `--help` and for an option that was not
declared, or it returns with the flags stored on `program`. -/
inductive ParseResult where
  | exits (status : Nat)
  | returns (program : Program)

/-- What one invocation finds outside its command line. -/
structure Host where
  packageJson : Option JsVal
  processEnv : List (String × JsVal)
  files : Files
  childStatus : Nat
  childFiles : Files → Files
  resolve : String → FileId

/-- The script from top to bottom: the command line is parsed first, and nothing
else runs when the parsing ends the process. -/
def script (parse : ParseResult) (host : Host) : Outcome :=
  match parse with
  | .exits status => ⟨⟨host.files, [], []⟩, some (.processExit status)⟩
  | .returns program =>
    main ⟨program, host.packageJson, host.processEnv, host.files, host.childStatus,
      host.childFiles, host.resolve⟩

/-! ## Lemmas on the key-name normaliser -/

theorem isLowerAZ_of_isUpperAZ {c : Char} (h : isUpperAZ c = true) : isLowerAZ c = false := by
  simp only [isUpperAZ, isLowerAZ, Bool.and_eq_true, decide_eq_true_eq, Bool.and_eq_false_imp]
    at h ⊢
  intro h1
  simp only [decide_eq_false_iff_not]
  omega

theorem replaceCamel_cons_upper {c : Char} (rest : List Char) (h : isUpperAZ c = true) :
    replaceCamel (c :: rest) = c :: replaceCamel rest := by
  cases rest with
  | nil => simp [replaceCamel]
  | cons d tl => simp [replaceCamel, isLowerAZ_of_isUpperAZ h]

theorem isBoundary_cons_succ (c : Char) (cs : List Char) (i : Nat) :
    isBoundary (c :: cs) (i + 1) = isBoundary cs i := by
  simp [isBoundary]

theorem insertHyphens_nil : insertHyphens [] = [] := by
  simp [insertHyphens]

theorem insertHyphens_cons (c : Char) (cs : List Char) :
    insertHyphens (c :: cs) =
      (if isBoundary (c :: cs) 0 then [c, '-'] else [c]) ++ insertHyphens cs := by
  simp only [insertHyphens, List.length_cons, List.range_succ_eq_map, List.flatMap_cons,
    List.getElem?_cons_zero, List.flatMap_map]
  congr 1
  apply List.flatMap_congr
  intro i _
  simp [isBoundary_cons_succ]

theorem replaceCamel_eq_insertHyphens (cs : List Char) : replaceCamel cs = insertHyphens cs := by
  induction cs with
  | nil => simp [replaceCamel, insertHyphens_nil]
  | cons c tl ih =>
    rw [insertHyphens_cons, ← ih]
    cases tl with
    | nil => simp [replaceCamel, isBoundary]
    | cons d rest =>
      by_cases hb : (isLowerAZ c && isUpperAZ d) = true
      · have hd : isUpperAZ d = true := by simp_all
        simp [replaceCamel, isBoundary, hb, replaceCamel_cons_upper rest hd]
      · simp [replaceCamel, isBoundary, hb]

theorem replaceCamel_of_no_upper (cs : List Char) (h : ∀ c ∈ cs, isUpperAZ c = false) :
    replaceCamel cs = cs := by
  induction cs with
  | nil => simp [replaceCamel]
  | cons c tl ih =>
    have htl : replaceCamel tl = tl := ih fun d hd => h d (List.mem_cons_of_mem c hd)
    cases tl with
    | nil => simp [replaceCamel]
    | cons d rest =>
      have hd : isUpperAZ d = false := h d (by simp)
      simp [replaceCamel, hd, htl]

theorem map_lowerChar_of_no_upper (cs : List Char) (h : ∀ c ∈ cs, isUpperAZ c = false) :
    cs.map lowerChar = cs := by
  induction cs with
  | nil => rfl
  | cons c tl ih =>
    have hc : isUpperAZ c = false := h c (by simp)
    simp [lowerChar, hc, ih fun d hd => h d (List.mem_cons_of_mem c hd)]

theorem isUpperAZ_of_lower_or_hyphen {c : Char} (h : isLowerAZ c = true ∨ c = '-') :
    isUpperAZ c = false := by
  rcases h with h | h
  · simp only [isUpperAZ, isLowerAZ, Bool.and_eq_true, decide_eq_true_eq,
      Bool.and_eq_false_imp] at h ⊢
    intro h1
    simp only [decide_eq_false_iff_not]
    omega
  · subst h; decide

theorem camelToKebabCase_of_no_upper (x : String) (h : ∀ c ∈ x.data, isUpperAZ c = false) :
    camelToKebabCase x = x := by
  simp [camelToKebabCase, toLowerCase, replaceCamel_of_no_upper x.data h,
    map_lowerChar_of_no_upper x.data h]

/-! ## The key-name normaliser -/

/-- C3: `camelToKebabCase` equals its reference definition on every string: a hyphen
after every lowercase letter that is immediately followed by an uppercase letter
(no boundary is missed by the non-overlapping global matching, and no hyphen is
put anywhere else), then the whole result lowercased; `runnerConfig` gives
`runner-config`, `a` gives `a`, `ABC` gives `abc`. -/
theorem camelToKebabCase_eq_reference :
    (∀ s : String, camelToKebabCase s = toKebabCaseRef s) ∧
      camelToKebabCase "runnerConfig" = "runner-config" ∧
      camelToKebabCase "a" = "a" ∧
      camelToKebabCase "ABC" = "abc" := by
  refine ⟨fun s => ?_, by decide, by decide, by decide⟩
  simp [camelToKebabCase, toKebabCaseRef, replaceCamel_eq_insertHyphens]

/-- C4: `camelToKebabCase` is idempotent on every string made only of lowercase
letters and hyphens; being a total function on strings, it has no failing input. -/
theorem camelToKebabCase_idempotent (x : String)
    (h : ∀ c ∈ x.data, isLowerAZ c = true ∨ c = '-') :
    camelToKebabCase (camelToKebabCase x) = camelToKebabCase x := by
  have hx : camelToKebabCase x = x :=
    camelToKebabCase_of_no_upper x fun c hc => isUpperAZ_of_lower_or_hyphen (h c hc)
  rw [hx, hx]

/-- Witness for C4 at `runner-config`. -/
theorem camelToKebabCase_idempotent_witness :
    camelToKebabCase (camelToKebabCase "runner-config") = camelToKebabCase "runner-config" :=
  camelToKebabCase_idempotent "runner-config" (by decide)

/-! ## Precedence of `getConfigFor` -/

/-- C1, as stated, fails: with the flag `--specs ""` (a supplied but empty value)
and the settings object holding `specs: "custom"`, `getConfigFor('specs', 'e2e')`
returns `"custom"`, not the flag value. -/
theorem getConfigFor_empty_flag_falls_through :
    ({ Program.none with specs := .str "" } : Program).get "specs" = .str "" ∧
      getConfigFor { Program.none with specs := .str "" } (.obj [("specs", .str "custom")])
        "specs" (.str "e2e") = .ok (.str "custom") := by
  constructor <;> rfl

/-- C1, amended: when the flag value for the key is truthy, `getConfigFor` returns
that flag value, whatever the settings object is (it is not even read). -/
theorem getConfigFor_flag_wins (program : Program) (config : JsVal) (key : String)
    (defaults : JsVal) (h : (program.get key).truthy = true) :
    getConfigFor program config key defaults = .ok (program.get key) := by
  simp [getConfigFor, h]

/-- Witness for C1 amended: `--specs custom/e2e` with no settings object at all. -/
theorem getConfigFor_flag_wins_witness :
    getConfigFor { Program.none with specs := .str "custom/e2e" } .undefined "specs"
      (.str "e2e") = .ok (({ Program.none with specs := .str "custom/e2e" } : Program).get "specs") :=
  getConfigFor_flag_wins _ _ _ _ (by decide)

/-- C2, as stated, fails: with no flag and the settings object holding
`runnerConfig: ""` and `"runner-config": "e2e/custom.opts"`, the exact key is present
but `getConfigFor('runnerConfig', 'e2e/mocha.opts')` returns the kebab-case value. -/
theorem getConfigFor_falsy_exact_key_skipped :
    Program.none.get "runnerConfig" = .undefined ∧
      JsVal.getProp
        (.obj [("runnerConfig", .str ""), ("runner-config", .str "e2e/custom.opts")])
        "runnerConfig" = .ok (.str "") ∧
      getConfigFor Program.none
        (.obj [("runnerConfig", .str ""), ("runner-config", .str "e2e/custom.opts")])
        "runnerConfig" (.str "e2e/mocha.opts") = .ok (.str "e2e/custom.opts") := by
  refine ⟨rfl, rfl, rfl⟩

/-- C2, amended: for a key whose flag value is absent (or falsy) and a settings
object holding `exact` under the key and `kebab` under its kebab-case spelling
(`undefined` standing for a missing key), the result is `exact` if it is truthy,
otherwise `kebab` if it is truthy, otherwise the default. -/
theorem getConfigFor_settings_then_default (program : Program) (config : JsVal) (key : String)
    (defaults exact kebab : JsVal) (hflag : (program.get key).truthy = false)
    (hexact : config.getProp key = .ok exact)
    (hkebab : config.getProp (camelToKebabCase key) = .ok kebab) :
    getConfigFor program config key defaults =
      .ok (if exact.truthy then exact else if kebab.truthy then kebab else defaults) := by
  simp only [getConfigFor, hflag, hexact, hkebab]
  by_cases h1 : exact.truthy = true
  · simp [h1]
  · by_cases h2 : kebab.truthy = true
    · simp [h1, h2]
    · simp [h1, h2]

/-- Witness for C2 amended: both spellings hold a truthy value and the exact key
wins. -/
theorem getConfigFor_settings_then_default_witness :
    getConfigFor Program.none
        (.obj [("runner-config", .str "b.opts"), ("runnerConfig", .str "a.opts")])
        "runnerConfig" (.str "e2e/mocha.opts") =
      .ok (if (JsVal.str "a.opts").truthy then .str "a.opts"
        else if (JsVal.str "b.opts").truthy then .str "b.opts" else .str "e2e/mocha.opts") :=
  getConfigFor_settings_then_default _ _ _ _ _ _ rfl rfl rfl

/-! ## Lemmas on the script -/

theorem getProp_total_of_ok {config : JsVal} {key : String} {v : JsVal}
    (h : config.getProp key = .ok v) (key' : String) : ∃ v', config.getProp key' = .ok v' := by
  cases config <;> simp_all [JsVal.getProp]

theorem getConfigFor_total {config : JsVal} {key0 : String} {v : JsVal}
    (h : config.getProp key0 = .ok v) (program : Program) (key : String) (defaults : JsVal) :
    ∃ r, getConfigFor program config key defaults = .ok r := by
  obtain ⟨a, ha⟩ := getProp_total_of_ok h key
  obtain ⟨b, hb⟩ := getProp_total_of_ok h (camelToKebabCase key)
  simp only [getConfigFor, ha, hb]
  split
  · exact ⟨_, rfl⟩
  · split
    · exact ⟨_, rfl⟩
    · split <;> exact ⟨_, rfl⟩

theorem getProp_of_runner_ok {program : Program} {config r : JsVal}
    (h : runner program config = .ok r) (key : String) : ∃ v, config.getProp key = .ok v := by
  cases config <;> simp_all [runner, getConfigFor, Program.get, JsVal.truthy, JsVal.getProp]

theorem getConfigFor_runnerConfig_absent (program : Program) (config defaults : JsVal)
    (hflag : program.runnerConfig = .undefined)
    (hexact : config.getProp "runnerConfig" = .ok .undefined)
    (hkebab : config.getProp "runner-config" = .ok .undefined) :
    getConfigFor program config "runnerConfig" defaults = .ok defaults := by
  have hk : camelToKebabCase "runnerConfig" = "runner-config" := by decide
  have hg : program.get "runnerConfig" = .undefined := by simp [Program.get, hflag]
  simp [getConfigFor, hg, hk, hexact, hkebab, JsVal.truthy]

theorem loadSettings_of_resolved (program : Program) (packageJson : Option JsVal)
    (config r file : JsVal) (w : World) (hconfig : requireConfig packageJson = .ok config)
    (hrunner : runner program config = .ok r)
    (hfile : getConfigFor program config "runnerConfig" (getDefaultRunnerConfig r).1 = .ok file) :
    ∃ folder, testFolder program config = .ok folder ∧
      loadSettings program packageJson w =
        ({ w with console := w.console ++ (getDefaultRunnerConfig r).2 },
          .ok ⟨config, folder, r, file⟩) := by
  obtain ⟨v, hv⟩ := getProp_of_runner_ok hrunner "specs"
  obtain ⟨folder, hfolder⟩ := getConfigFor_total hv program "specs" (.str "e2e")
  refine ⟨folder, hfolder, ?_⟩
  have hfolder' : testFolder program config = .ok folder := hfolder
  simp [loadSettings, hconfig, hfolder', hrunner, runnerConfig, hfile]

/-! ## Runner-dependent default -/

/-- C5: when the resolved runner is `mocha` and no runner-config is given (no
`--runner-config` flag, no `runnerConfig` key and no `runner-config` key in the
settings), the settings resolve with `runnerConfig` equal to `e2e/mocha.opts`; when
the resolved runner is `jest`, with `runnerConfig` equal to `e2e/config.json`. -/
theorem runnerConfig_default_by_runner (program : Program) (packageJson : Option JsVal)
    (config : JsVal) (w : World) (hconfig : requireConfig packageJson = .ok config)
    (hflag : program.runnerConfig = .undefined)
    (hexact : config.getProp "runnerConfig" = .ok .undefined)
    (hkebab : config.getProp "runner-config" = .ok .undefined) :
    (runner program config = .ok (.str "mocha") →
      ∃ folder, loadSettings program packageJson w =
        (w, .ok ⟨config, folder, .str "mocha", .str "e2e/mocha.opts"⟩)) ∧
    (runner program config = .ok (.str "jest") →
      ∃ folder, loadSettings program packageJson w =
        (w, .ok ⟨config, folder, .str "jest", .str "e2e/config.json"⟩)) := by
  constructor
  · intro hrunner
    obtain ⟨folder, _, h⟩ := loadSettings_of_resolved program packageJson config _ _ w hconfig
      hrunner (getConfigFor_runnerConfig_absent program config _ hflag hexact hkebab)
    exact ⟨folder, by simpa [getDefaultRunnerConfig, JsVal.strictEqStr] using h⟩
  · intro hrunner
    obtain ⟨folder, _, h⟩ := loadSettings_of_resolved program packageJson config _ _ w hconfig
      hrunner (getConfigFor_runnerConfig_absent program config _ hflag hexact hkebab)
    exact ⟨folder, by simpa [getDefaultRunnerConfig, JsVal.strictEqStr] using h⟩

/-- Witness for C5: an empty `detox` object (the runner defaults to `mocha`) and a
`detox` object naming `jest`, both without flags. -/
theorem runnerConfig_default_by_runner_witness :
    (∃ folder, loadSettings Program.none (some (.obj [("detox", .obj [])])) ⟨[], [], []⟩ =
      (⟨[], [], []⟩, .ok ⟨.obj [], folder, .str "mocha", .str "e2e/mocha.opts"⟩)) ∧
    (∃ folder,
      loadSettings Program.none (some (.obj [("detox", .obj [("testRunner", .str "jest")])]))
        ⟨[], [], []⟩ =
      (⟨[], [], []⟩,
        .ok ⟨.obj [("testRunner", .str "jest")], folder, .str "jest", .str "e2e/config.json"⟩)) :=
  ⟨(runnerConfig_default_by_runner Program.none (some (.obj [("detox", .obj [])])) (.obj [])
      ⟨[], [], []⟩ rfl rfl rfl rfl).1 rfl,
   (runnerConfig_default_by_runner Program.none
      (some (.obj [("detox", .obj [("testRunner", .str "jest")])]))
      (.obj [("testRunner", .str "jest")]) ⟨[], [], []⟩ rfl rfl rfl rfl).2 rfl⟩

/-! ## Lemmas on substrings -/

theorem isPrefix_append_sep {c : Char} (b : List Char) :
    ∀ (a p : List Char), c ∉ p → (p <+: a ++ c :: b ↔ p <+: a) := by
  intro a
  induction a with
  | nil =>
    intro p hp
    cases p with
    | nil => simp
    | cons x t =>
      have hx : x ≠ c := fun h => hp (by simp [h])
      simp [List.prefix_cons_iff, hx]
  | cons y a ih =>
    intro p hp
    cases p with
    | nil => simp
    | cons x t =>
      have ht : c ∉ t := fun h => hp (List.mem_cons_of_mem x h)
      simp [List.cons_prefix_cons, ih t ht]

theorem isInfix_append_sep {c : Char} (b : List Char) (p : List Char) (hp : c ∉ p) :
    ∀ a : List Char, (p <:+: a ++ c :: b ↔ p <:+: a ∨ p <:+: b) := by
  intro a
  induction a with
  | nil =>
    cases p with
    | nil => simp
    | cons x t =>
      have hx : x ≠ c := fun h => hp (by simp [h])
      simp [List.infix_cons_iff, List.prefix_cons_iff, hx]
  | cons y a ih =>
    rw [List.cons_append, List.infix_cons_iff, ih, List.infix_cons_iff, ← List.cons_append,
      isPrefix_append_sep b (y :: a) p hp]
    tauto

theorem includes_sep (a b p : String) (hp : ' ' ∉ p.data) :
    includes (a ++ " " ++ b) p ↔ includes a p ∨ includes b p := by
  have h : (a ++ " " ++ b).data = a.data ++ ' ' :: b.data := by
    simp [String.data_append]
  unfold includes
  rw [h]
  exact isInfix_append_sep b.data p.data hp a.data

theorem includes_append_left (a b p : String) (h : includes a p) : includes (a ++ b) p := by
  unfold includes at h ⊢
  rw [String.data_append]
  exact h.trans (List.infix_append' [] a.data b.data)

theorem includes_append_right (a b p : String) (h : includes b p) : includes (a ++ b) p := by
  unfold includes at h ⊢
  rw [String.data_append]
  exact h.trans (List.suffix_append a.data b.data).isInfix

theorem includes_self (p : String) : includes p p := List.infix_refl p.data

theorem not_includes_flag_value (flag value p : String) (hp : ' ' ∉ p.data)
    (hflag : ¬ includes flag p) (hvalue : ¬ includes value p) :
    ¬ includes (flag ++ " " ++ value) p := by
  rw [includes_sep _ _ _ hp]
  tauto

theorem mochaCommand_no_grep (program : Program) (tf rc : JsVal)
    (hplatform : program.platform.truthy = false)
    (h1 : ¬ includes tf.toJsString "--grep")
    (h2 : ¬ includes rc.toJsString "--grep")
    (h3 : ¬ includes program.configuration.toJsString "--grep")
    (h4 : ¬ includes program.loglevel.toJsString "--grep")
    (h5 : ¬ includes program.debugSynchronization.toJsString "--grep")
    (h6 : ¬ includes program.artifactsLocation.toJsString "--grep") :
    ¬ includes (mochaCommand program tf rc) "--grep" := by
  have hp : ' ' ∉ "--grep".data := by decide
  have e0 : "node_modules/.bin/mocha " = "node_modules/.bin/mocha" ++ " " := by decide
  have e1 : "--opts " = "--opts" ++ " " := by decide
  have e2 : "--configuration " = "--configuration" ++ " " := by decide
  have e3 : "--loglevel " = "--loglevel" ++ " " := by decide
  have e4 : "--artifacts-location " = "--artifacts-location" ++ " " := by decide
  have e5 : "--debug-synchronization " = "--debug-synchronization" ++ " " := by decide
  have hempty : ¬ includes "" "--grep" := by decide
  simp only [mochaCommand, hplatform, e0, e1, e2, e3, e4, e5]
  simp only [includes_sep _ _ _ hp, not_or]
  refine ⟨⟨⟨⟨⟨⟨⟨⟨⟨by decide, h1⟩, ?_⟩, ?_⟩, ?_⟩, ?_⟩, ?_⟩, ?_⟩, ?_⟩, ?_⟩
  · split
    · exact not_includes_flag_value _ _ _ hp (by decide) h2
    · exact hempty
  · split
    · exact not_includes_flag_value _ _ _ hp (by decide) h3
    · exact hempty
  · split
    · exact not_includes_flag_value _ _ _ hp (by decide) h4
    · exact hempty
  · split <;> decide
  · split <;> decide
  · split
    · exact not_includes_flag_value _ _ _ hp (by decide) h5
    · exact hempty
  · simp
    exact hempty
  · split
    · exact not_includes_flag_value _ _ _ hp (by decide) h6
    · exact hempty

/-! ## Platform filter of the mocha command -/

/-- C6, as stated, fails in its last part: with no `--platform` flag and the settings
object holding `specs: "e2e --grep :smoke:"`, the one command the run starts is the
mocha command below, which carries a `--grep` flag. -/
theorem mochaCommand_grep_without_platform :
    Program.none.platform = .undefined ∧
      ((main ⟨Program.none, some (.obj [("detox", .obj [("specs", .str "e2e --grep :smoke:")])]),
          [], [], 0, id, sampleResolve⟩).world.spawned.map Spawn.command =
        ["node_modules/.bin/mocha e2e --grep :smoke: --opts e2e/mocha.opts       "]) ∧
      includes "node_modules/.bin/mocha e2e --grep :smoke: --opts e2e/mocha.opts       "
        "--grep" := by
  refine ⟨rfl, ?_, by decide⟩
  decide

/-- C6, amended: when platform is `ios` the command built by `runMocha` contains
`--grep :android: --invert`, when it is `android` the command contains
`--grep :ios: --invert`, for every value of the other options; when no platform is
given, `runMocha` adds no `--grep` flag, so the command contains `--grep` only if
one of the option values put into it (test folder, runner config, configuration,
loglevel, debug-synchronization, artifacts location) contains it. -/
theorem mochaCommand_platform_filter (program : Program) (tf rc : JsVal) :
    (program.platform = .str "ios" →
      includes (mochaCommand program tf rc) "--grep :android: --invert") ∧
    (program.platform = .str "android" →
      includes (mochaCommand program tf rc) "--grep :ios: --invert") ∧
    (program.platform.truthy = false →
      ¬ includes tf.toJsString "--grep" →
      ¬ includes rc.toJsString "--grep" →
      ¬ includes program.configuration.toJsString "--grep" →
      ¬ includes program.loglevel.toJsString "--grep" →
      ¬ includes program.debugSynchronization.toJsString "--grep" →
      ¬ includes program.artifactsLocation.toJsString "--grep" →
      ¬ includes (mochaCommand program tf rc) "--grep") := by
  refine ⟨fun h => ?_, fun h => ?_, mochaCommand_no_grep program tf rc⟩
  · simp only [mochaCommand, h]
    apply includes_append_left
    apply includes_append_left
    apply includes_append_right
    decide
  · simp only [mochaCommand, h]
    apply includes_append_left
    apply includes_append_left
    apply includes_append_right
    decide

/-- Witness for C6 amended: `--platform ios`, `--platform android` and no platform,
each with the default test folder and runner config. -/
theorem mochaCommand_platform_filter_witness :
    includes (mochaCommand { Program.none with platform := .str "ios" } (.str "e2e")
        (.str "e2e/mocha.opts")) "--grep :android: --invert" ∧
      includes (mochaCommand { Program.none with platform := .str "android" } (.str "e2e")
        (.str "e2e/mocha.opts")) "--grep :ios: --invert" ∧
      ¬ includes (mochaCommand Program.none (.str "e2e") (.str "e2e/mocha.opts")) "--grep" :=
  ⟨(mochaCommand_platform_filter { Program.none with platform := .str "ios" } (.str "e2e")
      (.str "e2e/mocha.opts")).1 rfl,
   (mochaCommand_platform_filter { Program.none with platform := .str "android" } (.str "e2e")
      (.str "e2e/mocha.opts")).2.1 rfl,
   (mochaCommand_platform_filter Program.none (.str "e2e") (.str "e2e/mocha.opts")).2.2 rfl
      (by decide) (by decide) (by decide) (by decide) (by decide) (by decide)⟩

/-! ## Lemmas on the effects of a run -/

theorem lookup_filter_ne (files : Files) (file other : FileId) (h : other ≠ file) :
    (files.filter fun entry => entry.1 != file).lookup other = files.lookup other := by
  induction files with
  | nil => rfl
  | cons entry rest ih =>
    obtain ⟨k, v⟩ := entry
    by_cases hk : k = file
    · subst hk
      have hne : (other == k) = false := by simp [h]
      simp [List.filter_cons, List.lookup_cons, hne, ih]
    · by_cases ho : other = k
      · simp [List.filter_cons, hk, List.lookup_cons, ho]
      · have hne : (other == k) = false := by simp [ho]
        simp [List.filter_cons, hk, List.lookup_cons, hne, ih]

theorem readFile_writeFileSync_same (resolve : String → FileId) (files : Files)
    (path content other : String) (h : resolve other = resolve path) :
    readFile resolve (writeFileSync resolve files path content) other = some content := by
  simp [readFile, writeFileSync, List.lookup_cons, h]

theorem readFile_writeFileSync_other (resolve : String → FileId) (files : Files)
    (path content other : String) (h : resolve other ≠ resolve path) :
    readFile resolve (writeFileSync resolve files path content) other =
      readFile resolve files other := by
  have hne : (resolve other == resolve path) = false := by simp [h]
  simp [readFile, writeFileSync, List.lookup_cons, hne,
    lookup_filter_ne files (resolve path) (resolve other) h]

theorem loadSettings_files (program : Program) (packageJson : Option JsVal) (w : World) :
    (loadSettings program packageJson w).1.files = w.files ∧
      (loadSettings program packageJson w).1.spawned = w.spawned := by
  cases h1 : requireConfig packageJson with
  | error e => simp [loadSettings, h1]
  | ok config =>
    cases h2 : testFolder program config with
    | error e => simp [loadSettings, h1, h2]
    | ok folder =>
      cases h3 : runner program config with
      | error e => simp [loadSettings, h1, h2, h3]
      | ok r =>
        cases h4 : getConfigFor program config "runnerConfig" (getDefaultRunnerConfig r).1 <;>
          simp [loadSettings, h1, h2, h3, runnerConfig, h4]

theorem loadSettings_of_require_error (program : Program) (packageJson : Option JsVal)
    (w : World) (e : JsError) (h : requireConfig packageJson = .error e) :
    loadSettings program packageJson w = (w, .error e) := by
  simp [loadSettings, h]

theorem execSync_files (command : String) (env : Option (List (String × JsVal)))
    (childStatus : Nat) (childFiles : Files → Files) (w : World) :
    (execSync command env childStatus childFiles w).world.files = childFiles w.files ∧
      (execSync command env childStatus childFiles w).world.spawned =
        w.spawned ++ [⟨command, env⟩] := by
  unfold execSync
  split <;> exact ⟨rfl, rfl⟩

theorem dispatch_files (program : Program) (s : Settings) (processEnv : List (String × JsVal))
    (childStatus : Nat) (childFiles : Files → Files) (w : World) (hw : w.spawned = []) :
    (dispatch program s processEnv childStatus childFiles w).world.files =
      if (dispatch program s processEnv childStatus childFiles w).world.spawned.isEmpty then
        w.files
      else childFiles w.files := by
  unfold dispatch
  split
  · simp [runMocha, execSync_files, hw]
  · split
    · unfold runJest
      split
      · simp [hw]
      · simp [execSync_files, hw]
    · simp [hw]

theorem main_files (i : Input) :
    (main i).world.files =
      if (main i).world.spawned.isEmpty then
        writeFileSync i.resolve i.files "./device.registry.state.lock" "[]"
      else i.childFiles (writeFileSync i.resolve i.files "./device.registry.state.lock" "[]") := by
  have h := loadSettings_files i.program i.packageJson
    (clearDeviceRegistryLockFile i.resolve ⟨i.files, [], []⟩)
  have hmain : main i =
      match loadSettings i.program i.packageJson
        (clearDeviceRegistryLockFile i.resolve ⟨i.files, [], []⟩) with
      | (w', .error e) => ⟨w', some e⟩
      | (w', .ok settings) =>
        dispatch (normalizeDebugSynchronization i.program) settings i.processEnv i.childStatus
          i.childFiles w' := rfl
  rw [hmain]
  revert h
  generalize loadSettings i.program i.packageJson
    (clearDeviceRegistryLockFile i.resolve ⟨i.files, [], []⟩) = x
  intro h
  rcases x with ⟨w', _ | settings⟩
  · have h1 : w'.files = writeFileSync i.resolve i.files "./device.registry.state.lock" "[]" :=
      h.1
    have h2 : w'.spawned = [] := h.2
    simp [h1, h2]
  · have h1 : w'.files = writeFileSync i.resolve i.files "./device.registry.state.lock" "[]" :=
      h.1
    have h2 : w'.spawned = [] := h.2
    simp only []
    rw [dispatch_files _ _ _ _ _ _ h2, h1]

theorem main_spawned_of_require_error (i : Input) (e : JsError)
    (h : requireConfig i.packageJson = .error e) :
    (main i).world.spawned = [] ∧ (main i).error = some e := by
  simp only [main]
  rw [loadSettings_of_require_error _ _ _ e h]
  exact ⟨rfl, rfl⟩

theorem main_unsupported (i : Input) (config r : JsVal)
    (hconfig : requireConfig i.packageJson = .ok config)
    (hrunner : runner i.program config = .ok r)
    (hmocha : r.strictEqStr "mocha" = false) (hjest : r.strictEqStr "jest" = false) :
    (main i).error = some (.error (r.toJsString
        ++ " is not supported in detox cli tools. You can still run your tests with the runner's own cli tool")) ∧
      (main i).world.spawned = [] ∧
      (main i).world.console = (getDefaultRunnerConfig r).2 := by
  obtain ⟨v, hv⟩ := getProp_of_runner_ok hrunner "runnerConfig"
  obtain ⟨file, hfile⟩ :=
    getConfigFor_total hv i.program "runnerConfig" (getDefaultRunnerConfig r).1
  obtain ⟨folder, _, h⟩ := loadSettings_of_resolved i.program i.packageJson config r file
    (clearDeviceRegistryLockFile i.resolve ⟨i.files, [], []⟩) hconfig hrunner hfile
  simp only [main]
  rw [h]
  simp [dispatch, hmocha, hjest, clearDeviceRegistryLockFile]

theorem runJest_worker_count (program : Program) (config tf rc current hint : JsVal)
    (processEnv : List (String × JsVal)) (childStatus : Nat) (childFiles : Files → Files)
    (w : World) (hcurrent : currentConfiguration program config = .ok current)
    (hhint : current.getProp "maxTestWorkers" = .ok hint) :
    ∃ n command env, n = (if hint.truthy then hint else .num 1) ∧
      (runJest program config tf rc processEnv childStatus childFiles w).world.spawned =
        w.spawned ++ [⟨command, some env⟩] ∧
      includes command ("--maxWorkers=" ++ n.toJsString) ∧
      env.lookup "maxTestWorkers" = some n := by
  refine ⟨_, jestCommand program tf rc (if hint.truthy then hint else .num 1),
    jestEnv program (if hint.truthy then hint else .num 1) processEnv, rfl, ?_, ?_, ?_⟩
  · have hw : maxTestWorkers program config = .ok (if hint.truthy then hint else .num 1) := by
      simp only [maxTestWorkers, hcurrent, hhint]
      split <;> rfl
    simp only [runJest, hw, execSync]
    split <;> rfl
  · have e : " --maxWorkers=" = " " ++ "--maxWorkers=" := by decide
    simp only [jestCommand]
    apply includes_append_left
    apply includes_append_left
    rw [e, ← String.append_assoc, String.append_assoc]
    apply includes_append_right
    exact includes_self _
  · simp [jestEnv, List.lookup_cons]

/-! ## Unsupported runner -/

/-- C7: for every resolved runner other than `mocha` and `jest`, the invocation ends
with the error whose message starts with that runner's name, and no subprocess is
spawned. -/
theorem unsupported_runner_is_fatal (i : Input) (config r : JsVal)
    (hconfig : requireConfig i.packageJson = .ok config)
    (hrunner : runner i.program config = .ok r)
    (hmocha : r.strictEqStr "mocha" = false) (hjest : r.strictEqStr "jest" = false) :
    (main i).error = some (.error (r.toJsString
        ++ " is not supported in detox cli tools. You can still run your tests with the runner's own cli tool")) ∧
      (main i).world.spawned = [] :=
  ⟨(main_unsupported i config r hconfig hrunner hmocha hjest).1,
    (main_unsupported i config r hconfig hrunner hmocha hjest).2.1⟩

/-- Witness for C7: the settings object names the runner `bogus`. -/
theorem unsupported_runner_is_fatal_witness :
    (main ⟨Program.none, some (.obj [("detox", .obj [("testRunner", .str "bogus")])]), [], [],
        0, id, sampleResolve⟩).error = some (.error ((JsVal.str "bogus").toJsString
        ++ " is not supported in detox cli tools. You can still run your tests with the runner's own cli tool")) ∧
      (main ⟨Program.none, some (.obj [("detox", .obj [("testRunner", .str "bogus")])]), [], [],
        0, id, sampleResolve⟩).world.spawned = [] :=
  unsupported_runner_is_fatal
    ⟨Program.none, some (.obj [("detox", .obj [("testRunner", .str "bogus")])]), [], [], 0, id, sampleResolve⟩
    (.obj [("testRunner", .str "bogus")]) (.str "bogus") rfl rfl rfl rfl

/-! ## Lock-file reset -/

/-- C8, as stated, fails. For `detox test --help`, `program.parse` prints the help
and ends the process before `clearDeviceRegistryLockFile` is reached: a lock file
holding `[1,2]` still holds `[1,2]` afterwards. And in a run that starts mocha, the
call to `execSync` returns only when the runner has ended, so a runner that leaves
`[3]` in the lock file leaves the invocation with `[3]` there. -/
theorem lock_file_not_always_reset :
    readFile sampleResolve
        (script (.exits 0) ⟨some (.obj [("detox", .obj [])]), [], [(0, "[1,2]")], 0, id,
          sampleResolve⟩).world.files "./device.registry.state.lock" = some "[1,2]" ∧
      readFile sampleResolve
        (script (.returns Program.none) ⟨some (.obj [("detox", .obj [])]), [], [(0, "[1,2]")],
          0, fun files => writeFileSync sampleResolve files "./device.registry.state.lock" "[3]",
          sampleResolve⟩).world.files "./device.registry.state.lock" = some "[3]" := by
  constructor
  · decide
  · decide

/-- C8, amended: for every invocation whose command line `program.parse` accepts,
whatever the files held before, the program first sets the file named by
`./device.registry.state.lock` to exactly `[]` and writes no other file. Let
`reset` be the files after that write: the lock file reads `[]` in it under every
path that names it, and every other file is as before. If the invocation starts
no runner, its final files are `reset`; this includes the invocations that fail
for a missing settings object or an unsupported runner. If it starts a runner, the
runner starts on `reset` and the final files are what the runner leaves of it. An
invocation that ends inside `program.parse` leaves all files as they were. -/
theorem lock_file_reset (program : Program) (host : Host) :
    ∃ reset : Files,
      (∀ path, host.resolve path = host.resolve "./device.registry.state.lock" →
        readFile host.resolve reset path = some "[]") ∧
      (∀ path, host.resolve path ≠ host.resolve "./device.registry.state.lock" →
        readFile host.resolve reset path = readFile host.resolve host.files path) ∧
      (script (.returns program) host).world.files =
        (if (script (.returns program) host).world.spawned.isEmpty then reset
          else host.childFiles reset) ∧
      (∀ e, requireConfig host.packageJson = .error e →
        (script (.returns program) host).world.files = reset) ∧
      (∀ config r, requireConfig host.packageJson = .ok config →
        runner program config = .ok r → r.strictEqStr "mocha" = false →
        r.strictEqStr "jest" = false →
        (script (.returns program) host).world.files = reset) ∧
      (∀ status, (script (.exits status) host).world.files = host.files) := by
  refine ⟨writeFileSync host.resolve host.files "./device.registry.state.lock" "[]",
    fun path h => readFile_writeFileSync_same _ _ _ _ path h,
    fun path h => readFile_writeFileSync_other _ _ _ _ path h,
    main_files _, fun e he => ?_, fun config r hconfig hrunner hmocha hjest => ?_,
    fun _ => rfl⟩
  · have hs := (main_spawned_of_require_error
      ⟨program, host.packageJson, host.processEnv, host.files, host.childStatus,
        host.childFiles, host.resolve⟩ e he).1
    have hf := main_files ⟨program, host.packageJson, host.processEnv, host.files,
      host.childStatus, host.childFiles, host.resolve⟩
    simp only [script]
    rw [hf, hs]
    rfl
  · have hs := (main_unsupported
      ⟨program, host.packageJson, host.processEnv, host.files, host.childStatus,
        host.childFiles, host.resolve⟩ config r hconfig hrunner hmocha hjest).2.1
    have hf := main_files ⟨program, host.packageJson, host.processEnv, host.files,
      host.childStatus, host.childFiles, host.resolve⟩
    simp only [script]
    rw [hf, hs]
    rfl

/-- Witness for C8 amended: a run that fails because `package.json` cannot be loaded,
with a lock file left over from an earlier run: the lock file reads `[]` afterwards,
also under its other spelling, and `notes.txt` is unchanged. -/
theorem lock_file_reset_witness :
    ∃ reset : Files,
      readFile sampleResolve reset "./device.registry.state.lock" = some "[]" ∧
      readFile sampleResolve reset "device.registry.state.lock" = some "[]" ∧
      readFile sampleResolve reset "notes.txt" = some "keep" ∧
      (script (.returns Program.none)
        ⟨Option.none, [], [(2, "keep"), (0, "[1,2]")], 0, id, sampleResolve⟩).world.files =
          reset :=
  (lock_file_reset Program.none
      ⟨Option.none, [], [(2, "keep"), (0, "[1,2]")], 0, id, sampleResolve⟩).elim
    fun reset h =>
      ⟨reset, h.1 "./device.registry.state.lock" rfl, h.1 "device.registry.state.lock" (by decide),
        (h.2.1 "notes.txt" (by decide)).trans (by decide), h.2.2.2.1 .requireFailed rfl⟩

/-! ## Missing default runner-config -/

/-- C9, as stated, fails in its last part: with the settings object naming the
runner `ava` and no runner-config, `getDefaultRunnerConfig` prints its diagnostic
and returns `undefined`, but the invocation then fails with the unsupported-runner
error and starts no child process. -/
theorem unrecognized_runner_does_not_run :
    getDefaultRunnerConfig (.str "ava") =
        (.undefined,
          ["Missing 'runner-config' value in detox config in package.json, using 'undefined' as default for ava"]) ∧
      (main ⟨Program.none, some (.obj [("detox", .obj [("testRunner", .str "ava")])]), [], [],
        0, id, sampleResolve⟩).error = some (.error
          "ava is not supported in detox cli tools. You can still run your tests with the runner's own cli tool") ∧
      (main ⟨Program.none, some (.obj [("detox", .obj [("testRunner", .str "ava")])]), [], [],
        0, id, sampleResolve⟩).world.spawned = [] := by
  refine ⟨rfl, ?_, rfl⟩
  decide

/-- C9, amended: for every resolved runner that is neither `mocha` nor `jest` and with
no runner-config supplied, `getDefaultRunnerConfig` prints one diagnostic naming the
runner and returns `undefined` without raising, and `runnerConfig` resolves to
`undefined`; the invocation then ends with the unsupported-runner error, with the
diagnostic on the console and no command run. -/
theorem missing_default_runner_config (i : Input) (config r : JsVal)
    (hconfig : requireConfig i.packageJson = .ok config)
    (hrunner : runner i.program config = .ok r)
    (hmocha : r.strictEqStr "mocha" = false) (hjest : r.strictEqStr "jest" = false)
    (hflag : i.program.runnerConfig = .undefined)
    (hexact : config.getProp "runnerConfig" = .ok .undefined)
    (hkebab : config.getProp "runner-config" = .ok .undefined) :
    getDefaultRunnerConfig r =
        (.undefined,
          ["Missing 'runner-config' value in detox config in package.json, using 'undefined' as default for "
            ++ r.toJsString]) ∧
      (∀ w, (runnerConfig i.program config r w).2 = .ok .undefined) ∧
      (main i).world.console =
        ["Missing 'runner-config' value in detox config in package.json, using 'undefined' as default for "
          ++ r.toJsString] ∧
      (main i).error = some (.error (r.toJsString
        ++ " is not supported in detox cli tools. You can still run your tests with the runner's own cli tool")) ∧
      (main i).world.spawned = [] := by
  have hdefault : getDefaultRunnerConfig r =
      (.undefined,
        ["Missing 'runner-config' value in detox config in package.json, using 'undefined' as default for "
          ++ r.toJsString]) := by
    simp only [getDefaultRunnerConfig, hmocha, hjest, JsVal.toJsString]
    rfl
  obtain ⟨herror, hspawned, hconsole⟩ := main_unsupported i config r hconfig hrunner hmocha hjest
  refine ⟨hdefault, fun w => ?_, ?_, herror, hspawned⟩
  · simp only [runnerConfig]
    rw [getConfigFor_runnerConfig_absent i.program config _ hflag hexact hkebab, hdefault]
  · rw [hconsole, hdefault]

/-- Witness for C9 amended: the settings object names the runner `tape`. -/
theorem missing_default_runner_config_witness :
    (main ⟨Program.none, some (.obj [("detox", .obj [("testRunner", .str "tape")])]), [], [],
        0, id, sampleResolve⟩).world.console =
        ["Missing 'runner-config' value in detox config in package.json, using 'undefined' as default for "
          ++ (JsVal.str "tape").toJsString] ∧
      (main ⟨Program.none, some (.obj [("detox", .obj [("testRunner", .str "tape")])]), [], [],
        0, id, sampleResolve⟩).error = some (.error ((JsVal.str "tape").toJsString
        ++ " is not supported in detox cli tools. You can still run your tests with the runner's own cli tool")) :=
  ⟨(missing_default_runner_config
      ⟨Program.none, some (.obj [("detox", .obj [("testRunner", .str "tape")])]), [], [], 0, id, sampleResolve⟩
      (.obj [("testRunner", .str "tape")]) (.str "tape") rfl rfl rfl rfl rfl rfl rfl).2.2.1,
   (missing_default_runner_config
      ⟨Program.none, some (.obj [("detox", .obj [("testRunner", .str "tape")])]), [], [], 0, id, sampleResolve⟩
      (.obj [("testRunner", .str "tape")]) (.str "tape") rfl rfl rfl rfl rfl rfl rfl).2.2.2.1⟩

/-! ## Jest worker count -/

/-- C10, at its failing input: the settings object selects `jest` and defines one
configuration, and no `--configuration` flag is given. `runJest` looks the
configuration up under the key `undefined`, finds none, and reading
`maxTestWorkers` from it throws; no command with `--maxWorkers=1` is run. -/
theorem runJest_without_configuration_throws :
    (main ⟨Program.none,
        some (.obj [("detox", .obj [("testRunner", .str "jest"),
          ("configurations", .obj [("ios.sim.release", .obj [("type", .str "ios.simulator")])])])]),
        [], [], 0, id, sampleResolve⟩).error = some (.typeError "maxTestWorkers") ∧
      (main ⟨Program.none,
        some (.obj [("detox", .obj [("testRunner", .str "jest"),
          ("configurations", .obj [("ios.sim.release", .obj [("type", .str "ios.simulator")])])])]),
        [], [], 0, id, sampleResolve⟩).world.spawned.map Spawn.command = [] := by
  constructor
  · decide
  · decide

end Detox
